import Mathlib

/-!
Shallow embedding of the ant-colony simulation core: the world grid, the
pheromone (scent) fields, the fungus-garden economy, and the per-ant task
systems, together with proofs of the specified properties.

Floating-point values (f32) are modelled as exact rationals.  The f32 square
root used by the fungus-growth rate is not expressible in ℚ, so it is passed
to the growth step as an explicit parameter constrained in the theorems
(exactly, for perfect-square mulch counts, by sqrt_mulch * sqrt_mulch = mulch).
Pheromone fields and the tile grid are modelled as total functions on
coordinates; the simulation only ever reads and writes in-bounds cells.
-/

namespace Acre

/-- World side length (world.rs: WORLD_SIZE = 64). -/
def WORLD_SIZE : ℕ := 64

/-- Surface z-level (world.rs: SURFACE_LEVEL = 48). -/
def SURFACE_LEVEL : ℕ := 48

/-- Tile kinds of the world grid (world.rs: TileKind). -/
inductive TileKind
  | Air
  | Surface
  | Dirt
  | Tunnel
  | Chamber
  | FungusGarden
  | TreeTrunk
  | TreeCanopy
deriving DecidableEq

/-- Passability predicate (ants.rs: is_passable). -/
def is_passable (tile : TileKind) : Bool :=
  match tile with
  | .Surface | .Tunnel | .Chamber | .FungusGarden => true
  | _ => false

/-- Grid coordinates of an ant (ants.rs: GridPosition). -/
structure GridPosition where
  x : ℕ
  y : ℕ
  z : ℕ
deriving DecidableEq

/-- The world grid, indexed tiles z y x as in world.rs (tiles[z][y][x]). -/
abbrev WorldGrid := ℕ → ℕ → ℕ → TileKind

/-- Point update of the world grid at one cell. -/
def updateTile (wg : WorldGrid) (tx ty tz : ℕ) (t : TileKind) : WorldGrid :=
  fun z y x => if z = tz ∧ y = ty ∧ x = tx then t else wg z y x

/-- Pheromone field kinds (pheromones.rs: PheromoneType). -/
inductive PheromoneType
  | Dig
  | Forage
  | Home
  | Avoid
deriving DecidableEq

/-- The four scent fields, each indexed z y x as in pheromones.rs. -/
structure PheromoneGrids where
  dig : ℕ → ℕ → ℕ → ℚ
  forage : ℕ → ℕ → ℕ → ℚ
  home : ℕ → ℕ → ℕ → ℚ
  avoid : ℕ → ℕ → ℕ → ℚ

/-- Read a scent value (pheromones.rs: PheromoneGrids::get). -/
def PheromoneGrids.get (g : PheromoneGrids) (ptype : PheromoneType) (x y z : ℕ) : ℚ :=
  match ptype with
  | .Dig => g.dig z y x
  | .Forage => g.forage z y x
  | .Home => g.home z y x
  | .Avoid => g.avoid z y x

/-- Point update of one scent field at one cell. -/
def setCell (f : ℕ → ℕ → ℕ → ℚ) (x y z : ℕ) (v : ℚ) : ℕ → ℕ → ℕ → ℚ :=
  fun z' y' x' => if z' = z ∧ y' = y ∧ x' = x then v else f z' y' x'

/-- Write a scent value, clamped to [0,1] (pheromones.rs: PheromoneGrids::set;
Rust value.clamp(0.0, 1.0) is min (max value 0) 1). -/
def PheromoneGrids.set (g : PheromoneGrids) (ptype : PheromoneType) (x y z : ℕ)
    (value : ℚ) : PheromoneGrids :=
  match ptype with
  | .Dig => { g with dig := setCell g.dig x y z (min (max value 0) 1) }
  | .Forage => { g with forage := setCell g.forage x y z (min (max value 0) 1) }
  | .Home => { g with home := setCell g.home x y z (min (max value 0) 1) }
  | .Avoid => { g with avoid := setCell g.avoid x y z (min (max value 0) 1) }

/-- Deposit: add to a scent value (pheromones.rs: PheromoneGrids::add). -/
def PheromoneGrids.add (g : PheromoneGrids) (ptype : PheromoneType) (x y z : ℕ)
    (amount : ℚ) : PheromoneGrids :=
  g.set ptype x y z (g.get ptype x y z + amount)

/-- All-zero initial scent fields (pheromones.rs: Default for PheromoneGrids). -/
def pheromonesInit : PheromoneGrids :=
  ⟨fun _ _ _ => 0, fun _ _ _ => 0, fun _ _ _ => 0, fun _ _ _ => 0⟩

/-- Decay amount per tick (pheromones.rs: DECAY_RATE = 0.0005). -/
def DECAY_RATE : ℚ := 1/2000

/-- Per-cell decay (pheromones.rs: pheromone_decay inner update,
if v > 0 then (v - DECAY_RATE).max(0.0)). -/
def decayCell (v : ℚ) : ℚ := if 0 < v then max (v - DECAY_RATE) 0 else v

/-- Decay of one field over the in-bounds cells swept by the z/y/x loops. -/
def decayField (f : ℕ → ℕ → ℕ → ℚ) : ℕ → ℕ → ℕ → ℚ :=
  fun z y x =>
    if z < WORLD_SIZE ∧ y < WORLD_SIZE ∧ x < WORLD_SIZE then decayCell (f z y x)
    else f z y x

/-- One decay pass over all four fields (pheromones.rs: pheromone_decay). -/
def pheromone_decay (g : PheromoneGrids) : PheromoneGrids :=
  { dig := decayField g.dig
    forage := decayField g.forage
    home := decayField g.home
    avoid := decayField g.avoid }

/-- The colony resource economy (world.rs: FungusGarden). -/
structure FungusGarden where
  leaves : ℕ
  mulch : ℕ
  food : ℕ
  growth_progress : ℚ
deriving DecidableEq

/-- Initial garden state (world.rs: Default for FungusGarden). -/
def gardenInit : FungusGarden := ⟨0, 0, 10, 0⟩

/-- Deliver one raw leaf (world.rs: FungusGarden::add_leaf). -/
def FungusGarden.add_leaf (g : FungusGarden) : FungusGarden :=
  { g with leaves := g.leaves + 1 }

/-- Process one leaf into mulch, reporting success (world.rs:
FungusGarden::process_leaf). -/
def FungusGarden.process_leaf (g : FungusGarden) : FungusGarden × Bool :=
  if 0 < g.leaves then ({ g with leaves := g.leaves - 1, mulch := g.mulch + 1 }, true)
  else (g, false)

/-- Consume one food unit, reporting success (world.rs:
FungusGarden::consume_food). -/
def FungusGarden.consume_food (g : FungusGarden) : FungusGarden × Bool :=
  if 0 < g.food then ({ g with food := g.food - 1 }, true) else (g, false)

/-- One fungus-growth tick (world.rs: fungus_growth).  The parameter
sqrt_mulch stands for the f32 value (garden.mulch as f32).sqrt(); the growth
rate 0.005 * sqrt(mulch) becomes (1/200) * sqrt_mulch.  Note the source uses a
single if, not a loop, when progress crosses 1.0. -/
def fungus_growth (sqrt_mulch : ℚ) (g : FungusGarden) : FungusGarden :=
  if g.mulch = 0 then g
  else
    let growth_rate := (1/200) * sqrt_mulch
    let progress := g.growth_progress + growth_rate
    if 1 ≤ progress then
      { leaves := g.leaves
        mulch := if 0 < g.mulch then g.mulch - 1 else g.mulch
        food := g.food + 1
        growth_progress := progress - 1 }
    else { g with growth_progress := progress }

/-- A harvestable tree's grid position (world.rs: Tree). -/
structure Tree where
  x : ℕ
  y : ℕ
deriving DecidableEq

/-- A leaf source's counters (world.rs: LeafSource). -/
structure LeafSource where
  leaves_remaining : ℕ
  max_leaves : ℕ
  regrow_timer : ℚ
deriving DecidableEq

/-- Ant castes (ants.rs: Caste). -/
inductive Caste
  | Queen
  | Forager
  | Gardener
  | Soldier
deriving DecidableEq

/-- Carried item (ants.rs: Carrying). -/
inductive Carrying
  | Nothing
  | Leaf
  | Mulch
  | FungusFood
deriving DecidableEq

/-- Current task (ants.rs: Task).  A Foraging target tree entity is modelled
as a numeric entity id, resolved through a lookup when the foraging system
runs. -/
inductive Task
  | Idle
  | Wandering
  | Digging (target_x target_y target_z : ℕ)
  | Foraging (target_tree : ℕ)
  | CarryingHome (home_x home_y home_z : ℕ)
  | Gardening
  | SeekingFood
deriving DecidableEq

/-- The nest location (ants.rs: Default for NestLocation — world center at
surface level: WORLD_SIZE / 2 = 32, SURFACE_LEVEL = 48). -/
def nestDefault : GridPosition := ⟨32, 32, 48⟩

/-- One ant as the simulation owns it: position, caste, hunger (current and
max, ants.rs: Hunger), carried item and task. -/
structure AntState where
  pos : GridPosition
  caste : Caste
  hunger : ℚ
  hungerMax : ℚ
  carrying : Carrying
  task : Task
deriving DecidableEq

/-- A freshly spawned ant (ants.rs: spawn_ant — Hunger::default is 0 of 100,
Carrying::Nothing, Task::Idle). -/
def spawn_ant (x y z : ℕ) (caste : Caste) : AntState :=
  ⟨⟨x, y, z⟩, caste, 0, 100, .Nothing, .Idle⟩

/-- The founding queen (ants.rs: spawn_founding_colony — spawned at
(center, center, SURFACE_LEVEL) with center = WORLD_SIZE / 2). -/
def founding_queen : AntState := spawn_ant 32 32 48 .Queen

/-- Rust i32 clamp(0, WORLD_SIZE - 1) followed by the usize conversion used
when stepping a coordinate. -/
def clampCoord (v : ℤ) : ℕ := (max 0 (min v ((WORLD_SIZE : ℤ) - 1))).toNat

/-- One ant's slice of the digging system (ants.rs: ant_digging): when the
task is Digging and the ant is Chebyshev-adjacent to the target (every axis
distance at most 1, not the identical cell), convert the target to tunnel if
it is still dirt, and go idle either way. -/
def ant_digging_step (wg : WorldGrid) (pos : GridPosition) (task : Task) :
    WorldGrid × Task :=
  match task with
  | .Digging tx ty tz =>
    let dist_x := ((tx : ℤ) - (pos.x : ℤ)).natAbs
    let dist_y := ((ty : ℤ) - (pos.y : ℤ)).natAbs
    let dist_z := ((tz : ℤ) - (pos.z : ℤ)).natAbs
    if (dist_x ≤ 1 ∧ dist_y ≤ 1 ∧ dist_z ≤ 1) ∧ 0 < dist_x + dist_y + dist_z then
      if wg tz ty tx = TileKind.Dirt then
        (updateTile wg tx ty tz TileKind.Tunnel, Task.Idle)
      else (wg, Task.Idle)
    else (wg, task)
  | _ => (wg, task)

/-- Result of one ant's slice of the foraging system. -/
structure ForageOut where
  pos : GridPosition
  task : Task
  carrying : Carrying
  source : Option LeafSource
  ph : PheromoneGrids

/-- One ant's slice of the foraging system (ants.rs: ant_foraging).  The
tree parameter is the outcome of the tree_query.get_mut lookup for the task's
target entity; the returned source is the (possibly updated) leaf source. -/
def ant_foraging_step (wg : WorldGrid) (nest : GridPosition)
    (tree : Option (Tree × LeafSource)) (ph : PheromoneGrids)
    (pos : GridPosition) (task : Task) (carrying : Carrying) : ForageOut :=
  match task with
  | .Foraging _ =>
    match tree with
    | none => ⟨pos, .Idle, carrying, none, ph⟩
    | some (tr, leaf_source) =>
      if leaf_source.leaves_remaining = 0 then ⟨pos, .Idle, carrying, some leaf_source, ph⟩
      else
        let dist_x := ((tr.x : ℤ) - (pos.x : ℤ)).natAbs
        let dist_y := ((tr.y : ℤ) - (pos.y : ℤ)).natAbs
        if (dist_x ≤ 1 ∧ dist_y ≤ 1 ∧ 0 < dist_x + dist_y) ∧ pos.z = SURFACE_LEVEL then
          ⟨pos, .CarryingHome nest.x nest.y nest.z, .Leaf,
            some { leaf_source with leaves_remaining := leaf_source.leaves_remaining - 1 },
            ph.add .Forage pos.x pos.y pos.z (3/10)⟩
        else
          if pos.z ≠ SURFACE_LEVEL then
            let new_z := pos.z + 1
            if new_z < WORLD_SIZE ∧ is_passable (wg new_z pos.y pos.x) then
              ⟨{ pos with z := new_z }, task, carrying, some leaf_source, ph⟩
            else ⟨pos, task, carrying, some leaf_source, ph⟩
          else
            let dx := ((tr.x : ℤ) - (pos.x : ℤ)).sign
            let dy := ((tr.y : ℤ) - (pos.y : ℤ)).sign
            let new_x := clampCoord ((pos.x : ℤ) + dx)
            let new_y := clampCoord ((pos.y : ℤ) + dy)
            if is_passable (wg pos.z new_y new_x) then
              ⟨{ pos with x := new_x, y := new_y }, task, carrying, some leaf_source, ph⟩
            else if is_passable (wg pos.z pos.y new_x) then
              ⟨{ pos with x := new_x }, task, carrying, some leaf_source, ph⟩
            else if is_passable (wg pos.z new_y pos.x) then
              ⟨{ pos with y := new_y }, task, carrying, some leaf_source, ph⟩
            else ⟨pos, task, carrying, some leaf_source, ph⟩
  | _ => ⟨pos, task, carrying, tree.map Prod.snd, ph⟩

/-- Result of one ant's slice of the carrying system. -/
structure CarryOut where
  pos : GridPosition
  task : Task
  carrying : Carrying
  garden : FungusGarden
  ph : PheromoneGrids

/-- One ant's slice of the carrying system (ants.rs: ant_carrying). -/
def ant_carrying_step (wg : WorldGrid) (garden : FungusGarden) (ph : PheromoneGrids)
    (pos : GridPosition) (task : Task) (carrying : Carrying) : CarryOut :=
  match task with
  | .CarryingHome home_x home_y home_z =>
    if pos.x = home_x ∧ pos.y = home_y ∧ pos.z = home_z then
      let garden' := if carrying = Carrying.Leaf then garden.add_leaf else garden
      ⟨pos, .Idle, .Nothing, garden', ph⟩
    else
      let ph' :=
        if carrying = Carrying.Leaf then ph.add .Home pos.x pos.y pos.z (1/20) else ph
      let dx := ((home_x : ℤ) - (pos.x : ℤ)).sign
      let dy := ((home_y : ℤ) - (pos.y : ℤ)).sign
      let dz := ((home_z : ℤ) - (pos.z : ℤ)).sign
      if pos.z = home_z ∨ dz = 0 then
        let new_x := clampCoord ((pos.x : ℤ) + dx)
        let new_y := clampCoord ((pos.y : ℤ) + dy)
        if is_passable (wg pos.z new_y new_x) then
          ⟨{ pos with x := new_x, y := new_y }, task, carrying, garden, ph'⟩
        else if dx ≠ 0 ∧ is_passable (wg pos.z pos.y new_x) then
          ⟨{ pos with x := new_x }, task, carrying, garden, ph'⟩
        else if dy ≠ 0 ∧ is_passable (wg pos.z new_y pos.x) then
          ⟨{ pos with y := new_y }, task, carrying, garden, ph'⟩
        else ⟨pos, task, carrying, garden, ph'⟩
      else
        let new_z := clampCoord ((pos.z : ℤ) + dz)
        if is_passable (wg new_z pos.y pos.x) then
          ⟨{ pos with z := new_z }, task, carrying, garden, ph'⟩
        else ⟨pos, task, carrying, garden, ph'⟩
  | _ => ⟨pos, task, carrying, garden, ph⟩

/-- One ant's slice of the gardening system (ants.rs: ant_gardening). -/
def ant_gardening_step (nest : GridPosition) (garden : FungusGarden)
    (pos : GridPosition) (task : Task) : Task × FungusGarden :=
  match task with
  | .Gardening =>
    if pos.x = nest.x ∧ pos.y = nest.y ∧ pos.z = nest.z then
      let garden' := (garden.process_leaf).1
      if garden'.leaves = 0 then (.Idle, garden') else (.Gardening, garden')
    else (.Idle, garden)
  | _ => (task, garden)

/-- Hunger gained per tick (ants.rs: HUNGER_RATE = 0.15). -/
def HUNGER_RATE : ℚ := 3/20

/-- Hunger level that triggers food seeking (ants.rs: HUNGER_THRESHOLD = 50.0). -/
def HUNGER_THRESHOLD : ℚ := 50

/-- One ant's slice of the hunger system (ants.rs: ant_hunger): accrue hunger
(queen at half rate) and force SeekingFood past the threshold unless already
seeking food or carrying home. -/
def ant_hunger_step (caste : Caste) (hunger : ℚ) (task : Task) : ℚ × Task :=
  let rate := if caste = Caste.Queen then HUNGER_RATE * (1/2) else HUNGER_RATE
  let hunger' := hunger + rate
  if HUNGER_THRESHOLD ≤ hunger' then
    match task with
    | .SeekingFood => (hunger', task)
    | .CarryingHome _ _ _ => (hunger', task)
    | _ => (hunger', .SeekingFood)
  else (hunger', task)

/-- Result of one ant's slice of the feeding system. -/
structure FeedOut where
  pos : GridPosition
  hunger : ℚ
  task : Task
  garden : FungusGarden

/-- One ant's slice of the feeding system (ants.rs: ant_feeding). -/
def ant_feeding_step (wg : WorldGrid) (nest : GridPosition) (garden : FungusGarden)
    (pos : GridPosition) (hunger : ℚ) (task : Task) : FeedOut :=
  match task with
  | .SeekingFood =>
    if pos.x = nest.x ∧ pos.y = nest.y ∧ pos.z = nest.z then
      let r := garden.consume_food
      if r.2 then ⟨pos, 0, .Idle, r.1⟩ else ⟨pos, hunger, task, r.1⟩
    else
      let dx := ((nest.x : ℤ) - (pos.x : ℤ)).sign
      let dy := ((nest.y : ℤ) - (pos.y : ℤ)).sign
      let dz := ((nest.z : ℤ) - (pos.z : ℤ)).sign
      if pos.z = nest.z ∨ dz = 0 then
        let new_x := clampCoord ((pos.x : ℤ) + dx)
        let new_y := clampCoord ((pos.y : ℤ) + dy)
        if is_passable (wg pos.z new_y new_x) then
          ⟨{ pos with x := new_x, y := new_y }, hunger, task, garden⟩
        else if dx ≠ 0 ∧ is_passable (wg pos.z pos.y new_x) then
          ⟨{ pos with x := new_x }, hunger, task, garden⟩
        else if dy ≠ 0 ∧ is_passable (wg pos.z new_y pos.x) then
          ⟨{ pos with y := new_y }, hunger, task, garden⟩
        else ⟨pos, hunger, task, garden⟩
      else
        let new_z := clampCoord ((pos.z : ℤ) + dz)
        if is_passable (wg new_z pos.y pos.x) then
          ⟨{ pos with z := new_z }, hunger, task, garden⟩
        else ⟨pos, hunger, task, garden⟩
  | _ => ⟨pos, hunger, task, garden⟩

/-- The starvation pass over the whole population (ants.rs: ant_starvation):
every ant whose hunger has reached its max is despawned. -/
def ant_starvation (pop : List AntState) : List AntState :=
  pop.filter (fun a => ! decide (a.hungerMax ≤ a.hunger))

/-- The four planar directions in the order the wander loop visits them
(ants.rs: try_pheromone_biased_move, directions = [(0,1),(0,-1),(1,0),(-1,0)]). -/
def dirList : List (ℤ × ℤ) := [(0, 1), (0, -1), (1, 0), (-1, 0)]

/-- Rust cast (i32 value) as usize on a 64-bit target: reduce modulo 2^64. -/
def wrapUsize (v : ℤ) : ℕ := (v % (2 ^ 64 : ℤ)).toNat

/-- Weight of one wander direction (ants.rs: try_pheromone_biased_move weight
loop): 0 off-grid or onto an impassable tile; otherwise base 1 boosted by
5*dig + 3*forage + 2*home at the candidate cell, multiplied by
(1 - 0.9*avoid), floored at 0. -/
def dirWeight (wg : WorldGrid) (ph : PheromoneGrids) (p : GridPosition)
    (d : ℤ × ℤ) : ℚ :=
  let nxZ := (p.x : ℤ) + d.1
  let nyZ := (p.y : ℤ) + d.2
  if 0 ≤ nxZ ∧ nxZ < (WORLD_SIZE : ℤ) ∧ 0 ≤ nyZ ∧ nyZ < (WORLD_SIZE : ℤ) then
    let nx := nxZ.toNat
    let ny := nyZ.toNat
    if is_passable (wg p.z ny nx) then
      let dig_strength := ph.get .Dig nx ny p.z
      let forage_strength := ph.get .Forage nx ny p.z
      let home_strength := ph.get .Home nx ny p.z
      let avoid_strength := ph.get .Avoid nx ny p.z
      max ((1 + (dig_strength * 5 + forage_strength * 3 + home_strength * 2)) *
        (1 - avoid_strength * (9/10))) 0
    else 0
  else 0

/-- Pheromone influence of one wander direction (ants.rs: pheromone_influence,
dig + forage + home at the candidate cell; 0 for a skipped direction). -/
def dirInfluence (wg : WorldGrid) (ph : PheromoneGrids) (p : GridPosition)
    (d : ℤ × ℤ) : ℚ :=
  let nxZ := (p.x : ℤ) + d.1
  let nyZ := (p.y : ℤ) + d.2
  if 0 ≤ nxZ ∧ nxZ < (WORLD_SIZE : ℤ) ∧ 0 ≤ nyZ ∧ nyZ < (WORLD_SIZE : ℤ) then
    let nx := nxZ.toNat
    let ny := nyZ.toNat
    if is_passable (wg p.z ny nx) then
      ph.get .Dig nx ny p.z + ph.get .Forage nx ny p.z + ph.get .Home nx ny p.z
    else 0
  else 0

/-- Cumulative-weight roulette walk over (direction, weight, influence)
entries (ants.rs: try_pheromone_biased_move selection loop): subtract each
weight from the roll in order, moving at the first entry where the roll drops
to 0 or below, reinforcing forage/home trails at the old cell when the
pheromone influence exceeds 0.1.  Falling out of the list leaves the ant in
place (unreachable when the roll is below the total weight). -/
def rouletteMove (p : GridPosition) (ph : PheromoneGrids) :
    List ((ℤ × ℤ) × ℚ × ℚ) → ℚ → GridPosition × PheromoneGrids
  | [], _ => (p, ph)
  | (d, w, infl) :: rest, roll =>
    if roll - w ≤ 0 then
      let new_x := wrapUsize ((p.x : ℤ) + d.1)
      let new_y := wrapUsize ((p.y : ℤ) + d.2)
      let ph2 :=
        if 1/10 < infl then
          let forage_at_new := ph.get .Forage new_x new_y p.z
          let home_at_new := ph.get .Home new_x new_y p.z
          let ph0 := if 1/20 < forage_at_new then
            ph.add .Forage p.x p.y p.z (1/100) else ph
          let ph1 := if 1/20 < home_at_new then
            ph0.add .Home p.x p.y p.z (1/100) else ph0
          ph1
        else ph
      (⟨new_x, new_y, p.z⟩, ph2)
    else rouletteMove p ph rest (roll - w)

/-- The weight/influence entries the wander loop computes for an ant. -/
def wanderEntries (wg : WorldGrid) (ph : PheromoneGrids) (p : GridPosition) :
    List ((ℤ × ℤ) × ℚ × ℚ) :=
  dirList.map (fun d => (d, dirWeight wg ph p d, dirInfluence wg ph p d))

/-- Total weight over the four wander directions. -/
def wanderTotal (wg : WorldGrid) (ph : PheromoneGrids) (p : GridPosition) : ℚ :=
  ((wanderEntries wg ph p).map (fun e => e.2.1)).sum

/-- One pheromone-biased wander step (ants.rs: try_pheromone_biased_move).
The roll parameter is the single uniform draw the source takes from
[0, total_weight); the function is only applied to such rolls. -/
def try_pheromone_biased_move (wg : WorldGrid) (ph : PheromoneGrids)
    (p : GridPosition) (roll : ℚ) : GridPosition × PheromoneGrids :=
  if wanderTotal wg ph p ≤ 0 then (p, ph)
  else rouletteMove p ph (wanderEntries wg ph p) roll

/-- One pass of any per-ant system of the FixedUpdate schedule, with its
environment (grid, scent fields, garden, tree lookup) arbitrary.  The
ant_behavior pass is exact for the queen — the system skips her before doing
anything (ants.rs lines 267-270) — and is over-approximated for every other
caste by an arbitrary successor of the same caste (no system ever rewrites a
Caste component). -/
inductive PassStep : AntState → AntState → Prop
  | behaviorQueen (a : AntState) : a.caste = Caste.Queen → PassStep a a
  | behaviorWorker (a a' : AntState) :
      a.caste ≠ Caste.Queen → a'.caste = a.caste → PassStep a a'
  | digging (a : AntState) (wg : WorldGrid) :
      PassStep a { a with task := (ant_digging_step wg a.pos a.task).2 }
  | foraging (a : AntState) (wg : WorldGrid) (tree : Option (Tree × LeafSource))
      (ph : PheromoneGrids) :
      PassStep a
        { a with
          pos := (ant_foraging_step wg nestDefault tree ph a.pos a.task a.carrying).pos
          task := (ant_foraging_step wg nestDefault tree ph a.pos a.task a.carrying).task
          carrying :=
            (ant_foraging_step wg nestDefault tree ph a.pos a.task a.carrying).carrying }
  | carrying (a : AntState) (wg : WorldGrid) (garden : FungusGarden)
      (ph : PheromoneGrids) :
      PassStep a
        { a with
          pos := (ant_carrying_step wg garden ph a.pos a.task a.carrying).pos
          task := (ant_carrying_step wg garden ph a.pos a.task a.carrying).task
          carrying := (ant_carrying_step wg garden ph a.pos a.task a.carrying).carrying }
  | gardening (a : AntState) (garden : FungusGarden) :
      PassStep a { a with task := (ant_gardening_step nestDefault garden a.pos a.task).1 }
  | hunger (a : AntState) :
      PassStep a
        { a with
          hunger := (ant_hunger_step a.caste a.hunger a.task).1
          task := (ant_hunger_step a.caste a.hunger a.task).2 }
  | feeding (a : AntState) (wg : WorldGrid) (garden : FungusGarden) :
      PassStep a
        { a with
          pos := (ant_feeding_step wg nestDefault garden a.pos a.hunger a.task).pos
          hunger := (ant_feeding_step wg nestDefault garden a.pos a.hunger a.task).hunger
          task := (ant_feeding_step wg nestDefault garden a.pos a.hunger a.task).task }

/-- The adjacency test of the digging systems (ants.rs: is_adjacent in
ant_digging / ant_behavior): every axis distance at most 1 and not the
identical cell. -/
def digAdjacent (pos : GridPosition) (tx ty tz : ℕ) : Prop :=
  (((tx : ℤ) - (pos.x : ℤ)).natAbs ≤ 1 ∧ ((ty : ℤ) - (pos.y : ℤ)).natAbs ≤ 1 ∧
    ((tz : ℤ) - (pos.z : ℤ)).natAbs ≤ 1) ∧
  0 < ((tx : ℤ) - (pos.x : ℤ)).natAbs + ((ty : ℤ) - (pos.y : ℤ)).natAbs +
      ((tz : ℤ) - (pos.z : ℤ)).natAbs

instance (pos : GridPosition) (tx ty tz : ℕ) : Decidable (digAdjacent pos tx ty tz) := by
  unfold digAdjacent; infer_instance

/-- All four scent fields everywhere within [0, 1]. -/
def InUnit (g : PheromoneGrids) : Prop :=
  ∀ (ptype : PheromoneType) (x y z : ℕ),
    0 ≤ g.get ptype x y z ∧ g.get ptype x y z ≤ 1

/-- A world whose every tile is passable surface, for concrete evaluations. -/
def wgAllSurface : WorldGrid := fun _ _ _ => TileKind.Surface

/-- A world where only the cell x = 6, y = 5 (on every level) is passable,
for concrete evaluations: the north neighbour of (5, 5) is blocked. -/
def wgEastOpen : WorldGrid :=
  fun _ y x => if y = 5 ∧ x = 6 then TileKind.Surface else TileKind.Dirt

/-! Theorems. -/

/-- Claim C1, counterexample: the claim promises growth-progress strictly
below 1.0 after every grow call for every value of the mulch counter, but the
source subtracts 1.0 only once (an if, not a while).  With mulch = 40401
(sqrt exactly 201, growth rate 1.005 > 1) and progress 0.999 in [0,1), one
call ends with progress 1.004 ≥ 1. -/
theorem c1_counterexample :
    (201 : ℚ) * 201 = 40401 ∧
    (0 : ℚ) ≤ (999 / 1000 : ℚ) ∧ (999 / 1000 : ℚ) < 1 ∧
    fungus_growth 201 ⟨0, 40401, 0, 999 / 1000⟩ = ⟨0, 40400, 1, 251 / 250⟩ ∧
    ¬ (fungus_growth 201 ⟨0, 40401, 0, 999 / 1000⟩).growth_progress < 1 := by
  refine ⟨by norm_num, by norm_num, by norm_num, ?_, ?_⟩ <;>
    · unfold fungus_growth
      norm_num

/-- Claim C1 (amended): a grow call with mulch > 0 adds 0.005 * sqrt(mulch)
to growth-progress and then, if (not while) the result is ≥ 1.0, subtracts
1.0 once, increments food and decrements mulch; growth-progress stays in
[0,1) provided the added rate 0.005 * sqrt(mulch) is at most 1 (that is,
mulch ≤ 40000).  sqrt_mulch stands for the f32 square root of the mulch
counter. -/
theorem c1_growth_amended (sqrt_mulch : ℚ) (g : FungusGarden)
    (h0 : 0 ≤ g.growth_progress) (h1 : g.growth_progress < 1)
    (hm : 0 < g.mulch) (hs : 0 ≤ sqrt_mulch) (hr : (1 / 200) * sqrt_mulch ≤ 1) :
    (1 ≤ g.growth_progress + (1 / 200) * sqrt_mulch →
      fungus_growth sqrt_mulch g =
        { leaves := g.leaves, mulch := g.mulch - 1, food := g.food + 1,
          growth_progress := g.growth_progress + (1 / 200) * sqrt_mulch - 1 }) ∧
    (g.growth_progress + (1 / 200) * sqrt_mulch < 1 →
      fungus_growth sqrt_mulch g =
        { g with growth_progress := g.growth_progress + (1 / 200) * sqrt_mulch }) ∧
    0 ≤ (fungus_growth sqrt_mulch g).growth_progress ∧
    (fungus_growth sqrt_mulch g).growth_progress < 1 := by
  have hmne : g.mulch ≠ 0 := Nat.pos_iff_ne_zero.mp hm
  have hrate : 0 ≤ (1 / 200 : ℚ) * sqrt_mulch := by positivity
  unfold fungus_growth
  simp only [hmne, if_false, hm, if_true]
  by_cases hcross : 1 ≤ g.growth_progress + (1 / 200) * sqrt_mulch
  · rw [if_pos hcross]
    refine ⟨fun _ => rfl, fun habs => absurd hcross (not_le.mpr habs), ?_, ?_⟩ <;>
      simp only [] <;> linarith
  · rw [if_neg hcross]
    push_neg at hcross
    refine ⟨fun habs => absurd habs (not_le.mpr hcross), fun _ => rfl, ?_, ?_⟩ <;>
      simp only [] <;> linarith

/-- Claim C1, witness of the amended theorem at mulch = 1, sqrt 1, progress 0. -/
theorem c1_growth_witness :
    fungus_growth 1 ⟨0, 1, 0, 0⟩ =
      ({ (⟨0, 1, 0, 0⟩ : FungusGarden) with growth_progress := 0 + (1 / 200) * 1 }) ∧
    0 ≤ (fungus_growth 1 ⟨0, 1, 0, 0⟩).growth_progress ∧
    (fungus_growth 1 ⟨0, 1, 0, 0⟩).growth_progress < 1 := by
  have h := c1_growth_amended 1 ⟨0, 1, 0, 0⟩ (by norm_num) (by norm_num) (by norm_num)
    (by norm_num) (by norm_num)
  exact ⟨h.2.1 (by norm_num), h.2.2.1, h.2.2.2⟩

/-- Claim C2: process() with no raw leaves returns failure and leaves all
three counters and growth-progress unchanged; with raw = N + 1 > 0 it returns
success with raw decremented, mulch incremented, food and growth-progress
unchanged. -/
theorem c2_process_leaf (g : FungusGarden) :
    (g.leaves = 0 → g.process_leaf = (g, false)) ∧
    (∀ N : ℕ, g.leaves = N + 1 →
      g.process_leaf =
        ({ leaves := N, mulch := g.mulch + 1, food := g.food,
           growth_progress := g.growth_progress }, true)) := by
  constructor
  · intro h
    simp [FungusGarden.process_leaf, h]
  · intro N h
    simp [FungusGarden.process_leaf, h]

/-- Claim C2, witness at raw = 0 and raw = 4. -/
theorem c2_process_leaf_witness :
    FungusGarden.process_leaf ⟨0, 2, 3, 0⟩ = (⟨0, 2, 3, 0⟩, false) ∧
    FungusGarden.process_leaf ⟨4, 2, 3, 0⟩ = (⟨3, 3, 3, 0⟩, true) :=
  ⟨(c2_process_leaf ⟨0, 2, 3, 0⟩).1 rfl, (c2_process_leaf ⟨4, 2, 3, 0⟩).2 3 rfl⟩

/-- Claim C5: the digging pass for an agent in Digging leaves every grid cell
unchanged when the target is not Chebyshev-adjacent; when adjacent and the
target is dirt it converts exactly that one cell to tunnel (every other cell
unchanged) and sets the task to Idle; when adjacent and the target is not
dirt the whole grid is unchanged and the task still becomes Idle. -/
theorem c5_digging_frame (wg : WorldGrid) (pos : GridPosition) (tx ty tz : ℕ) :
    (¬ digAdjacent pos tx ty tz →
      (ant_digging_step wg pos (.Digging tx ty tz)).1 = wg) ∧
    (digAdjacent pos tx ty tz → wg tz ty tx = TileKind.Dirt →
      (ant_digging_step wg pos (.Digging tx ty tz)).1 tz ty tx = TileKind.Tunnel ∧
      (∀ z y x : ℕ, ¬(z = tz ∧ y = ty ∧ x = tx) →
        (ant_digging_step wg pos (.Digging tx ty tz)).1 z y x = wg z y x) ∧
      (ant_digging_step wg pos (.Digging tx ty tz)).2 = Task.Idle) ∧
    (digAdjacent pos tx ty tz → wg tz ty tx ≠ TileKind.Dirt →
      (ant_digging_step wg pos (.Digging tx ty tz)).1 = wg ∧
      (ant_digging_step wg pos (.Digging tx ty tz)).2 = Task.Idle) := by
  simp only [ant_digging_step, digAdjacent]
  refine ⟨fun hna => ?_, fun ha hd => ?_, fun ha hd => ?_⟩
  · rw [if_neg hna]
  · rw [if_pos ha, if_pos hd]
    exact ⟨by simp [updateTile], fun z y x hne => by simp [updateTile, hne], rfl⟩
  · rw [if_pos ha, if_neg hd]
    exact ⟨rfl, rfl⟩

/-- Claim C5, witness: an adjacent dirt target is dug. -/
theorem c5_digging_frame_witness :
    (ant_digging_step (fun _ _ _ => TileKind.Dirt) ⟨5, 5, 5⟩ (.Digging 5 6 5)).1 5 6 5 =
      TileKind.Tunnel ∧
    (ant_digging_step (fun _ _ _ => TileKind.Dirt) ⟨5, 5, 5⟩ (.Digging 5 6 5)).1 7 8 9 =
      TileKind.Dirt ∧
    (ant_digging_step (fun _ _ _ => TileKind.Dirt) ⟨5, 5, 5⟩ (.Digging 5 6 5)).2 =
      Task.Idle := by
  have h := (c5_digging_frame (fun _ _ _ => TileKind.Dirt) ⟨5, 5, 5⟩ 5 6 5).2.1
    (by unfold digAdjacent; decide) rfl
  exact ⟨h.1, h.2.1 7 8 9 (by decide), h.2.2⟩

/-- Claim C6: one hunger tick adds the fixed rate (half for the queen), and
when the resulting hunger reaches the threshold the task is forced to
SeekingFood unless it is already SeekingFood or CarryingHome, which are left
unchanged; below the threshold the task is never touched. -/
theorem c6_hunger_tick (caste : Caste) (hunger : ℚ) (task : Task) :
    (ant_hunger_step caste hunger task).1 =
      hunger + (if caste = Caste.Queen then HUNGER_RATE * (1 / 2) else HUNGER_RATE) ∧
    (HUNGER_THRESHOLD ≤ (ant_hunger_step caste hunger task).1 →
      ((task = Task.SeekingFood ∨ ∃ hx hy hz, task = Task.CarryingHome hx hy hz) →
        (ant_hunger_step caste hunger task).2 = task) ∧
      (task ≠ Task.SeekingFood → (∀ hx hy hz, task ≠ Task.CarryingHome hx hy hz) →
        (ant_hunger_step caste hunger task).2 = Task.SeekingFood)) ∧
    ((ant_hunger_step caste hunger task).1 < HUNGER_THRESHOLD →
      (ant_hunger_step caste hunger task).2 = task) := by
  simp only [ant_hunger_step]
  by_cases hth :
      HUNGER_THRESHOLD ≤ hunger + (if caste = Caste.Queen then HUNGER_RATE * (1 / 2)
        else HUNGER_RATE)
  · rw [if_pos hth]
    cases task with
    | Idle =>
        exact ⟨rfl, fun _ => ⟨fun hc => absurd hc (by simp), fun _ _ => rfl⟩,
          fun hlt => absurd hth (not_le.mpr hlt)⟩
    | Wandering =>
        exact ⟨rfl, fun _ => ⟨fun hc => absurd hc (by simp), fun _ _ => rfl⟩,
          fun hlt => absurd hth (not_le.mpr hlt)⟩
    | Digging tx ty tz =>
        exact ⟨rfl, fun _ => ⟨fun hc => absurd hc (by simp), fun _ _ => rfl⟩,
          fun hlt => absurd hth (not_le.mpr hlt)⟩
    | Foraging t =>
        exact ⟨rfl, fun _ => ⟨fun hc => absurd hc (by simp), fun _ _ => rfl⟩,
          fun hlt => absurd hth (not_le.mpr hlt)⟩
    | Gardening =>
        exact ⟨rfl, fun _ => ⟨fun hc => absurd hc (by simp), fun _ _ => rfl⟩,
          fun hlt => absurd hth (not_le.mpr hlt)⟩
    | SeekingFood =>
        exact ⟨rfl, fun _ => ⟨fun _ => rfl, fun hns _ => absurd rfl hns⟩,
          fun hlt => absurd hth (not_le.mpr hlt)⟩
    | CarryingHome hx hy hz =>
        exact ⟨rfl, fun _ => ⟨fun _ => rfl, fun _ hnc => absurd rfl (hnc hx hy hz)⟩,
          fun hlt => absurd hth (not_le.mpr hlt)⟩
  · rw [if_neg hth]
    exact ⟨rfl, fun hc => absurd hc hth, fun _ => rfl⟩

/-- Claim C6, witness: an idle forager at hunger 49.9 crosses the threshold
after one tick and is forced to SeekingFood; a queen gains half the rate. -/
theorem c6_hunger_tick_witness :
    (ant_hunger_step Caste.Forager (499 / 10) Task.Idle).1 = 499 / 10 + HUNGER_RATE ∧
    (ant_hunger_step Caste.Forager (499 / 10) Task.Idle).2 = Task.SeekingFood ∧
    (ant_hunger_step Caste.Queen 0 Task.Idle).1 = 0 + HUNGER_RATE * (1 / 2) := by
  have h1 := c6_hunger_tick Caste.Forager (499 / 10) Task.Idle
  have h2 := c6_hunger_tick Caste.Queen 0 Task.Idle
  refine ⟨by simpa using h1.1, ?_, by simpa using h2.1⟩
  refine (h1.2.1 ?_).2 (by simp) (by simp)
  rw [h1.1]
  simp only [reduceCtorEq, if_false]
  norm_num [HUNGER_RATE, HUNGER_THRESHOLD]

/-- Claim C7: the starvation pass removes exactly the agents whose hunger has
reached their maximum: any agent with hunger ≥ max is gone from the resulting
population, and any member with hunger < max survives the pass. -/
theorem c7_starvation (pop : List AntState) (a : AntState) :
    (a.hungerMax ≤ a.hunger → a ∉ ant_starvation pop) ∧
    (a ∈ pop → a.hunger < a.hungerMax → a ∈ ant_starvation pop) := by
  constructor
  · intro hge hmem
    rw [ant_starvation, List.mem_filter] at hmem
    simp only [Bool.not_eq_true', decide_eq_false_iff_not] at hmem
    exact hmem.2 hge
  · intro hmem hlt
    rw [ant_starvation, List.mem_filter]
    exact ⟨hmem, by simp [not_le.mpr hlt]⟩

/-- Claim C7, witness: of two ants, the starved one is removed and the fed
one survives. -/
theorem c7_starvation_witness :
    (⟨⟨0, 0, 0⟩, Caste.Forager, 100, 100, .Nothing, .Idle⟩ : AntState) ∉
      ant_starvation
        [⟨⟨0, 0, 0⟩, Caste.Forager, 100, 100, .Nothing, .Idle⟩,
         ⟨⟨1, 0, 0⟩, Caste.Gardener, 3, 100, .Nothing, .Idle⟩] ∧
    (⟨⟨1, 0, 0⟩, Caste.Gardener, 3, 100, .Nothing, .Idle⟩ : AntState) ∈
      ant_starvation
        [⟨⟨0, 0, 0⟩, Caste.Forager, 100, 100, .Nothing, .Idle⟩,
         ⟨⟨1, 0, 0⟩, Caste.Gardener, 3, 100, .Nothing, .Idle⟩] :=
  ⟨(c7_starvation _ _).1 (by norm_num),
   (c7_starvation _ _).2 (by simp) (by norm_num)⟩

/-- Claim C10: an agent in CarryingHome standing at its target always drops
what it carries and goes Idle; the garden's raw-leaf counter is incremented
by exactly 1 when the carried item was a leaf, and the garden is untouched
for any other carried item (mulch, fungus food, or nothing). -/
theorem c10_delivery (wg : WorldGrid) (garden : FungusGarden) (ph : PheromoneGrids)
    (pos : GridPosition) (carrying : Carrying) (hx hy hz : ℕ)
    (hax : pos.x = hx) (hay : pos.y = hy) (haz : pos.z = hz) :
    (ant_carrying_step wg garden ph pos (.CarryingHome hx hy hz) carrying).carrying =
      Carrying.Nothing ∧
    (ant_carrying_step wg garden ph pos (.CarryingHome hx hy hz) carrying).task =
      Task.Idle ∧
    (carrying = Carrying.Leaf →
      (ant_carrying_step wg garden ph pos (.CarryingHome hx hy hz) carrying).garden =
        { garden with leaves := garden.leaves + 1 }) ∧
    (carrying ≠ Carrying.Leaf →
      (ant_carrying_step wg garden ph pos (.CarryingHome hx hy hz) carrying).garden =
        garden) := by
  simp only [ant_carrying_step, hax, hay, haz, and_self, if_true, true_and]
  by_cases hc : carrying = Carrying.Leaf
  · simp [hc, FungusGarden.add_leaf]
  · simp [hc]

/-- Claim C10, witness: delivering a leaf adds one raw leaf; arriving with
mulch discards it without touching the garden. -/
theorem c10_delivery_witness :
    (ant_carrying_step wgAllSurface ⟨2, 3, 4, 0⟩ pheromonesInit ⟨32, 32, 48⟩
      (.CarryingHome 32 32 48) Carrying.Leaf).garden = ⟨3, 3, 4, 0⟩ ∧
    (ant_carrying_step wgAllSurface ⟨2, 3, 4, 0⟩ pheromonesInit ⟨32, 32, 48⟩
      (.CarryingHome 32 32 48) Carrying.Leaf).carrying = Carrying.Nothing ∧
    (ant_carrying_step wgAllSurface ⟨2, 3, 4, 0⟩ pheromonesInit ⟨32, 32, 48⟩
      (.CarryingHome 32 32 48) Carrying.Mulch).garden = ⟨2, 3, 4, 0⟩ ∧
    (ant_carrying_step wgAllSurface ⟨2, 3, 4, 0⟩ pheromonesInit ⟨32, 32, 48⟩
      (.CarryingHome 32 32 48) Carrying.Mulch).task = Task.Idle := by
  have h1 := c10_delivery wgAllSurface ⟨2, 3, 4, 0⟩ pheromonesInit ⟨32, 32, 48⟩
    Carrying.Leaf 32 32 48 rfl rfl rfl
  have h2 := c10_delivery wgAllSurface ⟨2, 3, 4, 0⟩ pheromonesInit ⟨32, 32, 48⟩
    Carrying.Mulch 32 32 48 rfl rfl rfl
  exact ⟨h1.2.2.1 rfl, h1.1, h2.2.2.2 (by simp), h2.2.1⟩

/-- Reading back a set: the written cell of the written field holds the
clamped value, every other (field, cell) pair is unchanged. -/
theorem get_set (g : PheromoneGrids) (ptype ptype' : PheromoneType)
    (x y z x' y' z' : ℕ) (v : ℚ) :
    (g.set ptype x y z v).get ptype' x' y' z' =
      if ptype' = ptype ∧ z' = z ∧ y' = y ∧ x' = x then min (max v 0) 1
      else g.get ptype' x' y' z' := by
  cases ptype <;> cases ptype' <;>
    simp [PheromoneGrids.get, PheromoneGrids.set, setCell]

/-- Reading back a decay pass: each in-bounds cell holds its decayed value,
out-of-bounds cells (never touched by the simulation) are unchanged. -/
theorem get_decay (g : PheromoneGrids) (ptype : PheromoneType) (x y z : ℕ) :
    (pheromone_decay g).get ptype x y z =
      if z < WORLD_SIZE ∧ y < WORLD_SIZE ∧ x < WORLD_SIZE then
        decayCell (g.get ptype x y z)
      else g.get ptype x y z := by
  cases ptype <;> rfl

/-- decayCell stays within [0, b] when its input is. -/
theorem decayCell_mem {v b : ℚ} (h0 : 0 ≤ v) (h1 : v ≤ b) (hb : 0 ≤ b) :
    0 ≤ decayCell v ∧ decayCell v ≤ b := by
  have hd : (0 : ℚ) ≤ DECAY_RATE := by norm_num [DECAY_RATE]
  unfold decayCell
  split
  · exact ⟨le_max_right _ _, max_le (by linarith) hb⟩
  · exact ⟨h0, h1⟩

/-- Claim C4: scent values always stay in [0,1].  get reads the stored value
(0 initially); set clamps its argument to [0,1]; add is set of (get + delta);
one decay pass maps every in-bounds cell of every field to its old value
minus the fixed rate, floored at 0 and never negative; and no operation (set,
add or decay) can take any cell of any field outside [0,1]. -/
theorem c4_scent_bounds :
    (∀ (ptype : PheromoneType) (x y z : ℕ), pheromonesInit.get ptype x y z = 0) ∧
    (∀ (g : PheromoneGrids) (ptype : PheromoneType) (x y z : ℕ) (v : ℚ),
      (g.set ptype x y z v).get ptype x y z = min (max v 0) 1) ∧
    (∀ (g : PheromoneGrids) (ptype : PheromoneType) (x y z : ℕ) (d : ℚ),
      g.add ptype x y z d = g.set ptype x y z (g.get ptype x y z + d)) ∧
    (∀ (g : PheromoneGrids) (ptype : PheromoneType) (x y z : ℕ),
      x < WORLD_SIZE → y < WORLD_SIZE → z < WORLD_SIZE → 0 ≤ g.get ptype x y z →
      (pheromone_decay g).get ptype x y z = max (g.get ptype x y z - DECAY_RATE) 0 ∧
      0 ≤ (pheromone_decay g).get ptype x y z) ∧
    (∀ (g : PheromoneGrids) (ptype : PheromoneType) (x y z : ℕ) (v : ℚ),
      InUnit g → InUnit (g.set ptype x y z v) ∧ InUnit (g.add ptype x y z v)) ∧
    (∀ g : PheromoneGrids, InUnit g → InUnit (pheromone_decay g)) ∧
    InUnit pheromonesInit := by
  have hset : ∀ (g : PheromoneGrids) (ptype : PheromoneType) (x y z : ℕ) (v : ℚ),
      InUnit g → InUnit (g.set ptype x y z v) := by
    intro g ptype x y z v hg ptype' x' y' z'
    rw [get_set]
    split
    · constructor
      · exact le_min (le_max_right _ _) (by norm_num)
      · exact min_le_right _ _
    · exact hg ptype' x' y' z'
  refine ⟨fun ptype x y z => by cases ptype <;> rfl,
    fun g ptype x y z v => by rw [get_set]; simp,
    fun g ptype x y z d => rfl,
    fun g ptype x y z hx hy hz h0 => ?_,
    fun g ptype x y z v hg => ⟨hset g ptype x y z v hg, hset g ptype x y z _ hg⟩,
    fun g hg ptype x y z => ?_,
    fun ptype x y z => by
      cases ptype <;> norm_num [pheromonesInit, PheromoneGrids.get]⟩
  · rw [get_decay, if_pos ⟨hz, hy, hx⟩]
    have hd : (0 : ℚ) < DECAY_RATE := by norm_num [DECAY_RATE]
    unfold decayCell
    by_cases hv : 0 < g.get ptype x y z
    · rw [if_pos hv]
      exact ⟨rfl, le_max_right _ _⟩
    · rw [if_neg hv]
      have hv0 : g.get ptype x y z = 0 := le_antisymm (not_lt.mp hv) h0
      rw [hv0]
      constructor
      · rw [max_eq_right (by linarith)]
      · exact le_refl (0 : ℚ)
  · rw [get_decay]
    split
    · exact decayCell_mem (hg ptype x y z).1 (hg ptype x y z).2 (by norm_num)
    · exact hg ptype x y z

/-- Claim C4, witness at concrete cells: initial value 0, a clamped set, a
decay read-back, and set preserving the unit range. -/
theorem c4_scent_bounds_witness :
    pheromonesInit.get PheromoneType.Dig 1 2 3 = 0 ∧
    (pheromonesInit.set PheromoneType.Forage 1 2 3 (5 / 2)).get
      PheromoneType.Forage 1 2 3 = min (max (5 / 2 : ℚ) 0) 1 ∧
    ((pheromone_decay pheromonesInit).get PheromoneType.Home 1 2 3 =
      max (pheromonesInit.get PheromoneType.Home 1 2 3 - DECAY_RATE) 0 ∧
      0 ≤ (pheromone_decay pheromonesInit).get PheromoneType.Home 1 2 3) ∧
    InUnit (pheromonesInit.set PheromoneType.Avoid 4 5 6 7) :=
  ⟨c4_scent_bounds.1 PheromoneType.Dig 1 2 3,
   c4_scent_bounds.2.1 pheromonesInit PheromoneType.Forage 1 2 3 (5 / 2),
   c4_scent_bounds.2.2.2.1 pheromonesInit PheromoneType.Home 1 2 3
     (by norm_num [WORLD_SIZE]) (by norm_num [WORLD_SIZE]) (by norm_num [WORLD_SIZE])
     (le_refl 0),
   (c4_scent_bounds.2.2.2.2.1 pheromonesInit PheromoneType.Avoid 4 5 6 7
     c4_scent_bounds.2.2.2.2.2.2).1⟩

/-- Claim C3: a foraging agent whose target source exists with yield ≥ 1,
standing at surface level within Chebyshev distance 1 of the source (non-zero
planar offset), harvests: the source's yield drops by 1 (floored at 0), the
carry slot becomes Leaf, forage scent at the agent's cell is raised by 0.3
(clamped to [0,1]), and the task becomes CarryingHome targeting the nest. -/
theorem c3_harvest (wg : WorldGrid) (nest : GridPosition) (tr : Tree)
    (ls : LeafSource) (ph : PheromoneGrids) (pos : GridPosition) (tid : ℕ)
    (c : Carrying)
    (hyield : 1 ≤ ls.leaves_remaining)
    (hdx : ((tr.x : ℤ) - (pos.x : ℤ)).natAbs ≤ 1)
    (hdy : ((tr.y : ℤ) - (pos.y : ℤ)).natAbs ≤ 1)
    (hnz : 0 < ((tr.x : ℤ) - (pos.x : ℤ)).natAbs + ((tr.y : ℤ) - (pos.y : ℤ)).natAbs)
    (hz : pos.z = SURFACE_LEVEL) :
    (ant_foraging_step wg nest (some (tr, ls)) ph pos (.Foraging tid) c).source =
      some { ls with leaves_remaining := ls.leaves_remaining - 1 } ∧
    (ant_foraging_step wg nest (some (tr, ls)) ph pos (.Foraging tid) c).carrying =
      Carrying.Leaf ∧
    (ant_foraging_step wg nest (some (tr, ls)) ph pos (.Foraging tid) c).ph.get
        PheromoneType.Forage pos.x pos.y pos.z =
      min (max (ph.get PheromoneType.Forage pos.x pos.y pos.z + 3 / 10) 0) 1 ∧
    (ant_foraging_step wg nest (some (tr, ls)) ph pos (.Foraging tid) c).task =
      Task.CarryingHome nest.x nest.y nest.z ∧
    (ant_foraging_step wg nest (some (tr, ls)) ph pos (.Foraging tid) c).pos = pos := by
  have hne : ls.leaves_remaining ≠ 0 := by omega
  simp only [ant_foraging_step, hne, if_false]
  rw [if_pos ⟨⟨hdx, hdy, hnz⟩, hz⟩]
  refine ⟨rfl, rfl, ?_, rfl, rfl⟩
  rw [PheromoneGrids.add, get_set]
  simp

/-- Claim C3, witness: harvesting at (9, 10, 48) from the tree at (10, 10). -/
theorem c3_harvest_witness :
    (ant_foraging_step wgAllSurface ⟨32, 32, 48⟩ (some (⟨10, 10⟩, ⟨20, 20, 0⟩))
        pheromonesInit ⟨9, 10, 48⟩ (.Foraging 0) Carrying.Nothing).source =
      some (⟨19, 20, 0⟩ : LeafSource) ∧
    (ant_foraging_step wgAllSurface ⟨32, 32, 48⟩ (some (⟨10, 10⟩, ⟨20, 20, 0⟩))
        pheromonesInit ⟨9, 10, 48⟩ (.Foraging 0) Carrying.Nothing).carrying =
      Carrying.Leaf ∧
    (ant_foraging_step wgAllSurface ⟨32, 32, 48⟩ (some (⟨10, 10⟩, ⟨20, 20, 0⟩))
        pheromonesInit ⟨9, 10, 48⟩ (.Foraging 0) Carrying.Nothing).ph.get
        PheromoneType.Forage 9 10 48 =
      min (max (pheromonesInit.get PheromoneType.Forage 9 10 48 + 3 / 10) 0) 1 ∧
    (ant_foraging_step wgAllSurface ⟨32, 32, 48⟩ (some (⟨10, 10⟩, ⟨20, 20, 0⟩))
        pheromonesInit ⟨9, 10, 48⟩ (.Foraging 0) Carrying.Nothing).task =
      Task.CarryingHome 32 32 48 := by
  have h := c3_harvest wgAllSurface ⟨32, 32, 48⟩ ⟨10, 10⟩ ⟨20, 20, 0⟩ pheromonesInit
    ⟨9, 10, 48⟩ 0 Carrying.Nothing (by norm_num) (by decide) (by decide) (by decide)
    (by decide)
  exact ⟨h.1, h.2.1, h.2.2.1, h.2.2.2.1⟩

/-- Every direction weight is non-negative (blocked directions get 0, open
ones are floored at 0). -/
theorem dirWeight_nonneg (wg : WorldGrid) (ph : PheromoneGrids) (p : GridPosition)
    (d : ℤ × ℤ) : 0 ≤ dirWeight wg ph p d := by
  unfold dirWeight
  dsimp only
  split_ifs
  · exact le_max_right _ _
  · exact le_refl 0
  · exact le_refl 0

/-- A direction with positive weight leads to an in-bounds, passable cell. -/
theorem dirWeight_pos_valid (wg : WorldGrid) (ph : PheromoneGrids) (p : GridPosition)
    (d : ℤ × ℤ) (hw : 0 < dirWeight wg ph p d) :
    (0 ≤ (p.x : ℤ) + d.1 ∧ (p.x : ℤ) + d.1 < (WORLD_SIZE : ℤ) ∧
      0 ≤ (p.y : ℤ) + d.2 ∧ (p.y : ℤ) + d.2 < (WORLD_SIZE : ℤ)) ∧
    is_passable (wg p.z ((p.y : ℤ) + d.2).toNat (((p.x : ℤ) + d.1).toNat)) = true := by
  unfold dirWeight at hw
  dsimp only at hw
  split_ifs at hw with h1 h2
  · exact ⟨h1, h2⟩
  · exact absurd hw (lt_irrefl 0)
  · exact absurd hw (lt_irrefl 0)

/-- The usize cast is the identity on coordinates inside the world. -/
theorem wrapUsize_eq_toNat {v : ℤ} (h0 : 0 ≤ v) (h64 : v < (WORLD_SIZE : ℤ)) :
    wrapUsize v = v.toNat := by
  unfold wrapUsize
  rw [Int.emod_eq_of_lt h0 (lt_trans h64 (by norm_num [WORLD_SIZE]))]

/-- The roulette walk with a strictly positive roll no greater than the total
weight selects an entry of strictly positive weight and moves there. -/
theorem rouletteMove_sel (p : GridPosition) (ph : PheromoneGrids)
    (entries : List ((ℤ × ℤ) × ℚ × ℚ)) :
    ∀ roll : ℚ, 0 < roll → roll ≤ (entries.map (fun e => e.2.1)).sum →
      ∃ e ∈ entries, 0 < e.2.1 ∧
        (rouletteMove p ph entries roll).1 =
          ⟨wrapUsize ((p.x : ℤ) + e.1.1), wrapUsize ((p.y : ℤ) + e.1.2), p.z⟩ := by
  induction entries with
  | nil =>
      intro roll hpos hle
      rw [List.map_nil, List.sum_nil] at hle
      exact absurd (lt_of_lt_of_le hpos hle) (lt_irrefl 0)
  | cons head rest ih =>
      obtain ⟨d, w, infl⟩ := head
      intro roll hpos hle
      rw [List.map_cons, List.sum_cons] at hle
      by_cases hsel : roll - w ≤ 0
      · refine ⟨(d, w, infl), List.mem_cons_self _ _, by linarith, ?_⟩
        simp only [rouletteMove, if_pos hsel]
      · push_neg at hsel
        obtain ⟨e, hmem, hw, hres⟩ := ih (roll - w) hsel (by linarith)
        refine ⟨e, List.mem_cons_of_mem _ hmem, hw, ?_⟩
        rw [show rouletteMove p ph ((d, w, infl) :: rest) roll =
            rouletteMove p ph rest (roll - w) by
          simp only [rouletteMove, if_neg (not_le.mpr hsel)]]
        exact hres

/-- Claim C8 (amended): the wander step weights the four planar neighbours as
base 1 plus 5*dig + 3*forage + 2*home at the candidate cell, multiplied by
(1 - 0.9*avoid) and floored at 0, with weight 0 for any off-grid or
impassable neighbour; a zero total weight leaves the agent in place; and a
draw strictly inside (0, total_weight) moves the agent to a neighbour of
positive weight, in-bounds and passable, chosen by cumulative-weight
roulette.  (For a draw of exactly 0 — possible, since the source draws from
[0, total_weight) — the loop selects the first direction even when its weight
is 0, see the counterexample.) -/
theorem c8_wander_amended (wg : WorldGrid) (ph : PheromoneGrids) (p : GridPosition)
    (roll : ℚ) :
    (∀ d ∈ dirList,
      (¬(0 ≤ (p.x : ℤ) + d.1 ∧ (p.x : ℤ) + d.1 < (WORLD_SIZE : ℤ) ∧
          0 ≤ (p.y : ℤ) + d.2 ∧ (p.y : ℤ) + d.2 < (WORLD_SIZE : ℤ)) ∨
        is_passable (wg p.z ((p.y : ℤ) + d.2).toNat (((p.x : ℤ) + d.1).toNat)) = false) →
      dirWeight wg ph p d = 0) ∧
    (wanderTotal wg ph p ≤ 0 → try_pheromone_biased_move wg ph p roll = (p, ph)) ∧
    (0 < roll → roll < wanderTotal wg ph p →
      ((((try_pheromone_biased_move wg ph p roll).1.x : ℤ) - (p.x : ℤ),
        ((try_pheromone_biased_move wg ph p roll).1.y : ℤ) - (p.y : ℤ)) ∈ dirList ∧
      0 < dirWeight wg ph p
        ((((try_pheromone_biased_move wg ph p roll).1.x : ℤ) - (p.x : ℤ)),
         (((try_pheromone_biased_move wg ph p roll).1.y : ℤ) - (p.y : ℤ))) ∧
      (try_pheromone_biased_move wg ph p roll).1.z = p.z ∧
      (try_pheromone_biased_move wg ph p roll).1.x < WORLD_SIZE ∧
      (try_pheromone_biased_move wg ph p roll).1.y < WORLD_SIZE ∧
      is_passable (wg p.z ((try_pheromone_biased_move wg ph p roll).1.y)
        ((try_pheromone_biased_move wg ph p roll).1.x)) = true)) := by
  refine ⟨?_, ?_, ?_⟩
  · intro d hd hbad
    unfold dirWeight
    dsimp only
    split_ifs with h1 h2
    · rcases hbad with hbad | hbad
      · exact absurd h1 hbad
      · rw [h2] at hbad
        exact absurd hbad (by simp)
    · rfl
    · rfl
  · intro htot
    unfold try_pheromone_biased_move
    rw [if_pos htot]
  · intro hpos hlt
    have htot : ¬ wanderTotal wg ph p ≤ 0 := not_le.mpr (lt_trans hpos hlt)
    have hres : try_pheromone_biased_move wg ph p roll =
        rouletteMove p ph (wanderEntries wg ph p) roll := by
      unfold try_pheromone_biased_move
      rw [if_neg htot]
    obtain ⟨e, hmem, hw, hmove⟩ :=
      rouletteMove_sel p ph (wanderEntries wg ph p) roll hpos (le_of_lt hlt)
    rw [wanderEntries] at hmem
    obtain ⟨d, hd, rfl⟩ := List.mem_map.mp hmem
    have hw' : 0 < dirWeight wg ph p d := hw
    obtain ⟨hb, hpass⟩ := dirWeight_pos_valid wg ph p d hw'
    have hwx : wrapUsize ((p.x : ℤ) + d.1) = ((p.x : ℤ) + d.1).toNat :=
      wrapUsize_eq_toNat hb.1 hb.2.1
    have hwy : wrapUsize ((p.y : ℤ) + d.2) = ((p.y : ℤ) + d.2).toNat :=
      wrapUsize_eq_toNat hb.2.2.1 hb.2.2.2
    have hfinal : (try_pheromone_biased_move wg ph p roll).1 =
        ⟨((p.x : ℤ) + d.1).toNat, ((p.y : ℤ) + d.2).toNat, p.z⟩ := by
      rw [hres, hmove, hwx, hwy]
    rw [hfinal]
    dsimp only
    have hdx : ((((p.x : ℤ) + d.1).toNat : ℤ)) - (p.x : ℤ) = d.1 := by
      rw [Int.toNat_of_nonneg hb.1]; ring
    have hdy : ((((p.y : ℤ) + d.2).toNat : ℤ)) - (p.y : ℤ) = d.2 := by
      rw [Int.toNat_of_nonneg hb.2.2.1]; ring
    rw [hdx, hdy, Prod.mk.eta]
    have hxlt : ((p.x : ℤ) + d.1).toNat < WORLD_SIZE := by omega
    have hylt : ((p.y : ℤ) + d.2).toNat < WORLD_SIZE := by omega
    exact ⟨hd, hw', rfl, hxlt, hylt, hpass⟩

/-- Claim C8, counterexample: the single uniform draw is taken from
[0, total_weight), and a draw of exactly 0 makes the selection loop accept
the first direction (north) even when its weight is 0.  At (5, 5, 48) in a
world whose only passable neighbour is the east cell, the total weight is 1,
so 0 is a legal draw — yet the agent moves north onto an impassable dirt
cell whose weight is 0, contradicting the claim that the selected neighbour
always has positive weight and is passable. -/
theorem c8_counterexample :
    wanderTotal wgEastOpen pheromonesInit ⟨5, 5, 48⟩ = 1 ∧
    dirWeight wgEastOpen pheromonesInit ⟨5, 5, 48⟩ (0, 1) = 0 ∧
    (try_pheromone_biased_move wgEastOpen pheromonesInit ⟨5, 5, 48⟩ 0).1 = ⟨5, 6, 48⟩ ∧
    is_passable (wgEastOpen 48 6 5) = false := by
  refine ⟨?_, ?_, ?_, rfl⟩
  · simp only [wanderTotal, wanderEntries, dirList, List.map_cons, List.map_nil,
      List.sum_cons, List.sum_nil, dirWeight, dirInfluence]
    simp [wgEastOpen, pheromonesInit, PheromoneGrids.get, WORLD_SIZE, is_passable]
  · simp only [dirWeight]
    simp [wgEastOpen, pheromonesInit, PheromoneGrids.get, WORLD_SIZE, is_passable]
  · simp only [try_pheromone_biased_move, wanderTotal, wanderEntries, dirList,
      List.map_cons, List.map_nil, List.sum_cons, List.sum_nil, dirWeight, dirInfluence]
    simp [wgEastOpen, pheromonesInit, PheromoneGrids.get, WORLD_SIZE, is_passable,
      rouletteMove, wrapUsize]
    norm_num

/-- Claim C8, witness of the amended theorem: with all four neighbours open
(total weight 4), the draw 2 moves the agent to an in-bounds passable
neighbour of positive weight. -/
theorem c8_wander_witness :
    (0 : ℚ) < 2 ∧ 2 < wanderTotal wgAllSurface pheromonesInit ⟨5, 5, 48⟩ ∧
    (((try_pheromone_biased_move wgAllSurface pheromonesInit ⟨5, 5, 48⟩ 2).1.x : ℤ) - 5,
      ((try_pheromone_biased_move wgAllSurface pheromonesInit ⟨5, 5, 48⟩ 2).1.y : ℤ) - 5)
        ∈ dirList ∧
    0 < dirWeight wgAllSurface pheromonesInit ⟨5, 5, 48⟩
      (((try_pheromone_biased_move wgAllSurface pheromonesInit ⟨5, 5, 48⟩ 2).1.x : ℤ) - 5,
       ((try_pheromone_biased_move wgAllSurface pheromonesInit ⟨5, 5, 48⟩ 2).1.y : ℤ) - 5) ∧
    (try_pheromone_biased_move wgAllSurface pheromonesInit ⟨5, 5, 48⟩ 2).1.z = 48 ∧
    (try_pheromone_biased_move wgAllSurface pheromonesInit ⟨5, 5, 48⟩ 2).1.x < WORLD_SIZE ∧
    (try_pheromone_biased_move wgAllSurface pheromonesInit ⟨5, 5, 48⟩ 2).1.y < WORLD_SIZE ∧
    is_passable (wgAllSurface 48
      ((try_pheromone_biased_move wgAllSurface pheromonesInit ⟨5, 5, 48⟩ 2).1.y)
      ((try_pheromone_biased_move wgAllSurface pheromonesInit ⟨5, 5, 48⟩ 2).1.x)) = true := by
  have htot : (2 : ℚ) < wanderTotal wgAllSurface pheromonesInit ⟨5, 5, 48⟩ := by
    have h4 : wanderTotal wgAllSurface pheromonesInit ⟨5, 5, 48⟩ = 4 := by
      simp only [wanderTotal, wanderEntries, dirList, List.map_cons, List.map_nil,
        List.sum_cons, List.sum_nil, dirWeight, dirInfluence]
      simp [wgAllSurface, pheromonesInit, PheromoneGrids.get, WORLD_SIZE, is_passable]
      norm_num
    rw [h4]
    norm_num
  have h := (c8_wander_amended wgAllSurface pheromonesInit ⟨5, 5, 48⟩ 2).2.2
    (by norm_num) htot
  exact ⟨by norm_num, htot, h.1, h.2.1, h.2.2.1, h.2.2.2.1, h.2.2.2.2.1, h.2.2.2.2.2⟩

/-- The invariant the queen maintains: she keeps her caste, stands at the
nest, and her task is only ever Idle or SeekingFood. -/
def QueenInv (a : AntState) : Prop :=
  a.caste = Caste.Queen ∧ a.pos = nestDefault ∧
    (a.task = Task.Idle ∨ a.task = Task.SeekingFood)

/-- One hunger tick leaves the task unchanged or forces SeekingFood. -/
theorem ant_hunger_task (c : Caste) (h : ℚ) (t : Task) :
    (ant_hunger_step c h t).2 = t ∨ (ant_hunger_step c h t).2 = Task.SeekingFood := by
  unfold ant_hunger_step
  dsimp only
  cases t <;> split_ifs <;> simp

/-- Every per-ant pass preserves the queen invariant. -/
theorem queenInv_step {a a' : AntState} (h : QueenInv a) (st : PassStep a a') :
    QueenInv a' := by
  obtain ⟨hc, hp, ht⟩ := h
  cases st with
  | behaviorQueen _ =>
      exact ⟨hc, hp, ht⟩
  | behaviorWorker _ hne _ =>
      exact absurd hc hne
  | digging wg =>
      refine ⟨hc, hp, ?_⟩
      rcases ht with h | h <;> simp [ant_digging_step, h]
  | foraging wg tree ph =>
      refine ⟨hc, ?_, ?_⟩ <;>
        rcases ht with h | h <;> simp [ant_foraging_step, h, hp]
  | carrying wg garden ph =>
      refine ⟨hc, ?_, ?_⟩ <;>
        rcases ht with h | h <;> simp [ant_carrying_step, h, hp]
  | gardening garden =>
      refine ⟨hc, hp, ?_⟩
      rcases ht with h | h <;> simp [ant_gardening_step, h]
  | hunger =>
      refine ⟨hc, hp, ?_⟩
      rcases ant_hunger_task a.caste a.hunger a.task with h2 | h2
      · rw [h2]
        exact ht
      · exact Or.inr h2
  | feeding wg garden =>
      have hcond : a.pos.x = nestDefault.x ∧ a.pos.y = nestDefault.y ∧
          a.pos.z = nestDefault.z := by
        rw [hp]
        exact ⟨rfl, rfl, rfl⟩
      rcases ht with h | h
      · exact ⟨hc, by simp [ant_feeding_step, h, hp], by simp [ant_feeding_step, h]⟩
      · refine ⟨hc, ?_, ?_⟩
        · simp only [ant_feeding_step, h]
          rw [if_pos hcond]
          split <;> exact hp
        · simp only [ant_feeding_step, h]
          rw [if_pos hcond]
          split
          · exact Or.inl rfl
          · exact Or.inr rfl

/-- Claim C9: the queen is immobile — in every state reachable from colony
founding through any sequence of per-ant simulation passes (behaviour,
digging, foraging, carrying, gardening, hunger, feeding) under arbitrary
world, scent, garden and tree states, the queen's grid position is still the
world-center surface cell (32, 32, 48) where she was spawned. -/
theorem c9_queen_immobile (s : AntState)
    (h : Relation.ReflTransGen PassStep founding_queen s) :
    s.pos = (⟨32, 32, 48⟩ : GridPosition) := by
  have hinv : QueenInv s := by
    induction h with
    | refl => exact ⟨rfl, rfl, Or.inl rfl⟩
    | tail _ hstep ih => exact queenInv_step ih hstep
  exact hinv.2.1

/-- Claim C9, witness: the freshly founded queen stands at the nest cell. -/
theorem c9_queen_immobile_witness :
    founding_queen.pos = (⟨32, 32, 48⟩ : GridPosition) :=
  c9_queen_immobile founding_queen Relation.ReflTransGen.refl

end Acre
